import Mathlib

/-!
Shallow embedding of the long-context decomposition pipeline
(`trae_agent/tools/context_tool.py`, `meta_tool.py`, `chunk_tool.py`,
`enhanced_chunk_tool.py` and `trae_agent/agent/long_context_agent.py`).

Strings are modelled as `List Char` (`Str`), Python integers as `Int`
(Python `//` is floor division, `Int.fdiv`).  Each definition mirrors one
function or expression of the source; theorems at the end of the file
settle the claims.
-/

/-- Python strings, modelled as lists of characters. -/
abbrev Str := List Char

/-- ASCII whitespace, as recognised by Python `str.strip()` / `str.split()`
(the repository only ever feeds ASCII text to these helpers). -/
def pyIsSpace (c : Char) : Bool :=
  c = ' ' || c = '\t' || c = '\n' || c = '\r' || c = '\x0B' || c = '\x0C'

/-- Python `str.lstrip()`. -/
def lstrip (s : Str) : Str := s.dropWhile pyIsSpace

/-- Python `str.rstrip()`. -/
def rstrip (s : Str) : Str := (s.reverse.dropWhile pyIsSpace).reverse

/-- Python `str.strip()`. -/
def pyStrip (s : Str) : Str := lstrip (rstrip s)

/-- Python `str.split('\n')`: always returns at least one (possibly empty) field. -/
def splitNL : Str → List Str
  | [] => [[]]
  | c :: rest =>
    match splitNL rest with
    | [] => [[]]
    | l :: ls => if c = '\n' then [] :: l :: ls else (c :: l) :: ls

/-- Python `'\n'.join(lines)`. -/
def joinNL : List Str → Str
  | [] => []
  | [l] => l
  | l :: m :: ls => l ++ '\n' :: joinNL (m :: ls)

/-- The `for i, line in enumerate(lines): if p(line): ... break` search pattern:
index of the first line satisfying `p`, if any. -/
def findLineIdx (p : Str → Bool) : List Str → Option Nat
  | [] => none
  | l :: ls => if p l then some 0 else (findLineIdx p ls).map (· + 1)

/-- Python `pat in s` (substring test). -/
def containsSubB (pat s : Str) : Bool := decide (pat <:+: s)

/-- Decimal digit character. -/
def digitChar (d : Nat) : Char := Char.ofNat (48 + d)

/-- Worker for `natDigits`: peels decimal digits of `n` into `acc`, with
structural fuel (any fuel above the number of digits, e.g. `n + 1`, is enough). -/
def natDigitsCore : Nat → Nat → Str → Str
  | 0, _, acc => acc
  | fuel + 1, n, acc =>
    if n < 10 then digitChar n :: acc
    else natDigitsCore fuel (n / 10) (digitChar (n % 10) :: acc)

/-- Decimal digits of a natural number, most significant first (Python `str(n)` for `n ≥ 0`). -/
def natDigits (n : Nat) : Str := natDigitsCore (n + 1) n []

/-- Python `str(i)` for an `int`. -/
def intStr (i : Int) : Str :=
  if i < 0 then '-' :: natDigits (-i).toNat else natDigits i.toNat

/-- Insert a comma after every third character of a reversed digit string. -/
def group3R : Str → Str
  | a :: b :: c :: d :: rest => a :: b :: c :: ',' :: group3R (d :: rest)
  | l => l

/-- Python `format(n, ',')` for `n ≥ 0`: thousands separators. -/
def commaNat (n : Nat) : Str := (group3R (natDigits n).reverse).reverse

/-- Python `format(i, ',')` for an `int`. -/
def commaInt (i : Int) : Str :=
  if i < 0 then '-' :: commaNat (-i).toNat else commaNat i.toNat

/-- Worker for `pyWords`, with structural fuel (every step consumes at least
one character, so `length + 1` fuel is enough). -/
def pyWordsCore : Nat → Str → List Str
  | 0, _ => []
  | _ + 1, [] => []
  | fuel + 1, c :: rest =>
    if pyIsSpace c then pyWordsCore fuel rest
    else (c :: rest.takeWhile (fun x => !(pyIsSpace x)))
      :: pyWordsCore fuel (rest.dropWhile (fun x => !(pyIsSpace x)))

/-- Python `str.split()` (no separator): maximal runs of non-whitespace. -/
def pyWords (s : Str) : List Str := pyWordsCore (s.length + 1) s

/-! ## ContextFileManagerTool (`context_tool.py`) -/

/-- The statistics computed by `ContextFileManagerTool._save_context`
(lines 106-108): `file_size = len(context)`, `lines = context.count('\n') + 1`,
`words = len(context.split())`. -/
structure SaveStats where
  file_size : Nat
  lines : Nat
  words : Nat
deriving DecidableEq, Repr

/-- `ContextFileManagerTool._save_context` statistics block. -/
def save_context_stats (context : Str) : SaveStats :=
  { file_size := context.length
    lines := context.count '\n' + 1
    words := (pyWords context).length }

/-- `ContextFileManagerTool._get_chunk_info` line 147:
`num_chunks = max(1, (total_size - overlap) // (chunk_size - overlap))`
(Python `//` is floor division). -/
def num_chunks (total_size chunk_size overlap : Int) : Int :=
  max 1 ((total_size - overlap).fdiv (chunk_size - overlap))

/-- Modelled from the spec: "the number of chunks is
`max(1, ceil((total_size - overlap) / (chunk_size - overlap)))`"
(§3 ChunkingPlan); the ceiling is `(a + b - 1) // b` for a positive divisor `b`. -/
def specNumChunks (total_size chunk_size overlap : Int) : Int :=
  max 1 ((total_size - overlap + (chunk_size - overlap) - 1).fdiv (chunk_size - overlap))

/-- The boundary loop of `_get_chunk_info` (lines 159-165):
`for i in range(num_chunks): start = i*(chunk_size-overlap); end = min(start+chunk_size, total_size); emit; if end >= total_size: break`. -/
def chunkBoundariesLoop (chunk_size overlap total_size : Int) : Nat → Nat → List (Int × Int)
  | 0, _ => []
  | fuel + 1, i =>
    let start := (i : Int) * (chunk_size - overlap)
    let e := min (start + chunk_size) total_size
    (start, e) :: (if total_size ≤ e then [] else chunkBoundariesLoop chunk_size overlap total_size fuel (i + 1))

/-- The chunk-boundary list reported by `ContextFileManagerTool._get_chunk_info`. -/
def chunkBoundaries (total_size chunk_size overlap : Int) : List (Int × Int) :=
  chunkBoundariesLoop chunk_size overlap total_size (num_chunks total_size chunk_size overlap).toNat 0

/-- Spec §8 coverage: position `x` of `[0, total_size)` is covered by some reported boundary. -/
def coveredBy (bs : List (Int × Int)) (x : Int) : Prop :=
  ∃ p ∈ bs, p.1 ≤ x ∧ x < p.2

instance (bs : List (Int × Int)) (x : Int) : Decidable (coveredBy bs x) := by
  unfold coveredBy; infer_instance

/-! ## Tool results

`ToolExecResult` carries either `output` or `(error, error_code)`; we model it as
`Except (Str × Int) Str`. -/

abbrev ToolResult := Except (Str × Int) Str

/-! ## MetaPromptTool (`meta_tool.py`) -/

/-- The success output template of `MetaPromptTool.execute` (lines 115-124),
instantiated with the stripped model response `enhanced_prompt`. -/
def metaFormat (simple_prompt enhanced_prompt : Str) : Str :=
  "Enhanced Prompt Generated Successfully:\n\n".data ++ enhanced_prompt
    ++ "\n\n---\nOptimization Summary:\n- Original prompt length: ".data
    ++ natDigits simple_prompt.length
    ++ " characters  \n- Enhanced prompt length: ".data
    ++ natDigits enhanced_prompt.length
    ++ " characters\n- Optimized for chunk-based processing: Yes\n- CoT complexity reduction: Applied".data

/-- `MetaPromptTool.execute`.  The model-call boundary is an oracle
`chat : Str → Str` from the user message to the response content; a missing
client is `none`. -/
def metaPromptExecute (simple_prompt task_context : Str) (client : Option (Str → Str)) :
    ToolResult :=
  if simple_prompt = [] then
    .error ("simple_prompt is required".data, 1)
  else
    match client with
    | none => .error ("LLM client not available for meta_prompt_tool".data, 1)
    | some chat =>
      let user_message :=
        "Transform this simple prompt into a high-quality, detailed prompt optimized for chunk-based processing:\n\nSimple Prompt: ".data
          ++ simple_prompt
          ++ (if task_context = [] then [] else "\n\nTask or Goal: ".data ++ task_context)
      let content := chat user_message
      if content = [] then .error ("Failed to generate enhanced prompt".data, 1)
      else .ok (metaFormat simple_prompt (pyStrip content))

/-! ## TextChunkTool (`chunk_tool.py`) -/

/-- The argument record built for `TextChunkTool.execute`. -/
structure ChunkArgs where
  file_path : Str
  start_pos : Int
  end_pos : Int
  query : Str
  enhanced_prompt : Str
  chunk_id : Option Str

/-- `chunk_id` default `f"chunk_{start_pos}_{end_pos}"`. -/
def chunkIdDefault (start_pos end_pos : Int) : Str :=
  "chunk_".data ++ intStr start_pos ++ "_".data ++ intStr end_pos

/-- The file read of `TextChunkTool.execute` (lines 107-109):
`f.seek(start_pos); f.read(end_pos - start_pos)` on the stored text. -/
def seekRead (content : Str) (start_pos end_pos : Int) : Str :=
  (content.drop start_pos.toNat).take (end_pos - start_pos).toNat

/-- Modelled from the spec: "Reads exactly the `[start, end)` slice from the
stored resource" — the characters at positions `start ≤ i < end`. -/
def sliceSpec (content : Str) (start_pos end_pos : Int) : Str :=
  (content.take end_pos.toNat).drop start_pos.toNat

/-- The user message of `TextChunkTool.execute` (lines 133-147). -/
def chunkUserMessage (enhanced_prompt query chunk_id : Str) (start_pos end_pos : Int)
    (chunk_text : Str) : Str :=
  "**Enhanced Instructions:** ".data ++ enhanced_prompt
    ++ "\n\n**Query to Answer:** ".data ++ query
    ++ "\n\n**Text Chunk Information:**\n- Chunk ID: ".data ++ chunk_id
    ++ "\n- Position: ".data ++ intStr start_pos ++ ":".data ++ intStr end_pos
    ++ "\n- Size: ".data ++ natDigits chunk_text.length
    ++ " characters\n\n**Text Chunk Content:**\n".data ++ chunk_text
    ++ "\n\n---\n\nPlease process this text chunk according to the enhanced instructions and answer the query. Remember that this is only a partial view of a larger document.".data

/-- The success output template of `TextChunkTool.execute` (lines 189-200),
with `response` the raw model response content. -/
def chunkFormat (chunk_id query : Str) (start_pos end_pos : Int) (chunk_text response : Str) : Str :=
  "**Chunk Processing Result**\n\n**Chunk Info:** ".data ++ chunk_id
    ++ " (position ".data ++ intStr start_pos ++ ":".data ++ intStr end_pos
    ++ ")\n**Query:** ".data ++ query
    ++ "\n**Chunk Size:** ".data ++ commaNat chunk_text.length
    ++ " characters\n\n**Analysis Result:**\n".data ++ pyStrip response
    ++ "\n\n---\n**Processing Status:** Complete\n**Tokens Used:** ~".data
    ++ natDigits (chunk_text.length / 4)
    ++ " input + ~".data ++ natDigits (response.length / 4) ++ " output".data

/-- Instrumentation: one model call made by `TextChunkTool.execute`,
recording the message sent and the `chunk_text` it embeds. -/
structure ChunkToolCall where
  user_message : Str
  chunk_text : Str

/-- `TextChunkTool.execute`.  `content` is the stored file's text (`none`
when the file does not exist) and `chat` the model-call oracle.  Besides
the tool result, the list of model calls actually issued is returned. -/
def textChunkExecute (content : Option Str) (hasClient : Bool) (args : ChunkArgs)
    (chat : Str → Str) : ToolResult × List ChunkToolCall :=
  let chunk_id := args.chunk_id.getD (chunkIdDefault args.start_pos args.end_pos)
  if args.file_path = [] ∨ args.query = [] ∨ args.enhanced_prompt = [] then
    (.error ("Required parameters: file_path, start_pos, end_pos, query, enhanced_prompt".data, 1), [])
  else if args.start_pos < 0 ∨ args.end_pos ≤ args.start_pos then
    (.error ("Invalid position range: start_pos must be >= 0 and end_pos must be > start_pos".data, 1), [])
  else if !hasClient then
    (.error ("LLM client not available for text_chunk_tool".data, 1), [])
  else
    match content with
    | none => (.error ("File not found: ".data ++ args.file_path, 1), [])
    | some text =>
      let chunk_text := seekRead text args.start_pos args.end_pos
      if pyStrip chunk_text = [] then
        (.error ("No content found in range ".data ++ intStr args.start_pos ++ ":".data
          ++ intStr args.end_pos, 1), [])
      else
        let user_message :=
          chunkUserMessage args.enhanced_prompt args.query chunk_id args.start_pos args.end_pos chunk_text
        let response := chat user_message
        if response = [] then
          (.error ("Failed to process text chunk".data, 1), [⟨user_message, chunk_text⟩])
        else
          (.ok (chunkFormat chunk_id args.query args.start_pos args.end_pos chunk_text response),
            [⟨user_message, chunk_text⟩])

/-! ## EnhancedChunkTool (`enhanced_chunk_tool.py`) -/

/-- Marker `'Enhanced Prompt Generated Successfully:'`. -/
def markEPGS : Str := "Enhanced Prompt Generated Successfully:".data

/-- Marker `'**Analysis Result:**'`. -/
def markAR : Str := "**Analysis Result:**".data

/-- Marker `'**Chunk Processing Result**'`. -/
def markCPR : Str := "**Chunk Processing Result**".data

/-- `EnhancedChunkTool._extract_enhanced_prompt` (lines 171-212). -/
def extract_enhanced_prompt (meta_output : Str) : Str :=
  let lines := splitNL meta_output
  let idx1 := (findLineIdx (fun l => containsSubB markEPGS l) lines).map (· + 2)
  let idx :=
    match idx1 with
    | some i => some i
    | none =>
      findLineIdx
        (fun l => !(pyStrip l).isEmpty && !(("Enhanced Prompt".data).isPrefixOf l)
          && !(("---".data).isPrefixOf l)) lines
  match idx with
  | none => pyStrip meta_output
  | some i =>
    pyStrip (joinNL ((lines.drop i).takeWhile (fun l => !(pyStrip l == "---".data))))

/-- The stop condition of `_clean_chunk_output`'s collection loop (line 256),
negated so that the loop is a `takeWhile`. -/
def cleanKeepPred (l : Str) : Bool :=
  !(("---".data).isPrefixOf l) && !(containsSubB "**Processing Status:**".data l)
    && !(containsSubB "**Tokens Used:**".data l)

/-- The final clean result template of `_clean_chunk_output` (lines 264-272). -/
def cleanTemplate (chunk_id : Str) (start_pos end_pos : Int) (analysis_content : Str) : Str :=
  "**Chunk Analysis Result**\n\n**Chunk:** ".data ++ chunk_id
    ++ " (position ".data ++ intStr start_pos ++ ":".data ++ intStr end_pos
    ++ ")\n**Size:** ".data ++ commaInt (end_pos - start_pos)
    ++ " characters\n\n**Analysis:**\n".data ++ analysis_content
    ++ "\n\n**Status:** Processing complete".data

/-- `EnhancedChunkTool._clean_chunk_output` (lines 214-278). -/
def clean_chunk_output (chunk_output chunk_id : Str) (start_pos end_pos : Int) : Str :=
  let lines := splitNL chunk_output
  let r1 := (findLineIdx (fun l => containsSubB markAR l) lines).map (· + 1)
  let r2 :=
    match r1 with
    | some i => some i
    | none =>
      match findLineIdx (fun l => containsSubB markCPR l) lines with
      | some i =>
        (findLineIdx (fun l => !(("**".data).isPrefixOf l) && !(pyStrip l).isEmpty)
          (lines.drop i)).map (· + i)
      | none => none
  let result_start_idx := r2.getD (min 5 lines.length)
  let result_lines := (lines.drop result_start_idx).takeWhile cleanKeepPred
  cleanTemplate chunk_id start_pos end_pos (pyStrip (joinNL result_lines))

/-- Arguments of `EnhancedChunkTool.execute`. -/
structure EnhArgs where
  file_path : Str
  start_pos : Int
  end_pos : Int
  query : Str
  simple_prompt : Str
  task_context : Str
  chunk_id : Option Str

/-- Arguments passed to the internal `MetaPromptTool`. -/
structure MetaArgs where
  simple_prompt : Str
  task_context : Str

/-- `EnhancedChunkTool.execute` (lines 89-169).  The two internal stages are
oracles (`metaExec`, `chunkExec`); `hasClient` is whether an LLM client was
configured (the internal tools exist iff it was, line 30-31).  The orchestrator
returns its tool result together with the sequences of internal meta and chunk
invocations it issued. -/
def enhancedChunkExecute (hasClient : Bool)
    (metaExec : MetaArgs → ToolResult) (chunkExec : ChunkArgs → ToolResult)
    (args : EnhArgs) : ToolResult × List MetaArgs × List ChunkArgs :=
  if !hasClient then
    (.error ("LLM client not available for enhanced_chunk_tool".data, 1), [], [])
  else
    let chunk_id := args.chunk_id.getD (chunkIdDefault args.start_pos args.end_pos)
    if args.file_path = [] ∨ args.query = [] ∨ args.simple_prompt = [] then
      (.error ("Required parameters: file_path, start_pos, end_pos, query, simple_prompt".data, 1), [], [])
    else
      let meta_args : MetaArgs := ⟨args.simple_prompt, args.task_context⟩
      match metaExec meta_args with
      | .error (e, _) =>
        (.error ("Internal prompt enhancement failed: ".data ++ e, 1), [meta_args], [])
      | .ok meta_output =>
        let enhanced_prompt := extract_enhanced_prompt meta_output
        let chunk_args : ChunkArgs :=
          ⟨args.file_path, args.start_pos, args.end_pos, args.query, enhanced_prompt, some chunk_id⟩
        match chunkExec chunk_args with
        | .error (e, code) =>
          (.error ("Internal chunk processing failed: ".data ++ e, code), [meta_args], [chunk_args])
        | .ok chunk_output =>
          (.ok (clean_chunk_output chunk_output chunk_id args.start_pos args.end_pos),
            [meta_args], [chunk_args])

/-! ## LongContextAgent (`long_context_agent.py`) -/

/-- The task-visible state of a `LongContextAgent`: whether its temporary
workspace directory currently exists. -/
structure AgentState where
  temp_dir_exists : Bool

/-- The result type of the control loop (`agent_basics.AgentExecution`). -/
structure AgentExecution where
  success : Bool
  final_result : Str

/-- `LongContextAgent._cleanup_temp_files` (lines 151-155): if the directory
exists, remove it recursively (`ignore_errors=True`); afterwards it does not exist. -/
def cleanup_temp_files (_s : AgentState) : AgentState :=
  { temp_dir_exists := false }

/-- `LongContextAgent.execute_task` (lines 135-149).  Modelled from the spec:
`BaseAgent.execute_task` is the out-of-scope control loop (spec §1, not under
`src/`); per spec §6/§7 and the repository's tests
(`test_error_handling_with_context_isolation`), it returns an
`AgentExecution` whose `success` flag records failure instead of raising, so it
is modelled as an arbitrary state function `base_execute_task`.  The override
awaits it and then calls `_cleanup_temp_files`. -/
def execute_task (base_execute_task : AgentState → AgentExecution × AgentState)
    (s : AgentState) : AgentExecution × AgentState :=
  let (execution, s1) := base_execute_task s
  (execution, cleanup_temp_files s1)

/-! ## Concrete inputs used by the claim witnesses -/

/-- A 200-character synthetic enhanced instruction. -/
def w1E : Str := List.replicate 200 'x'

/-- Meta-tool success output whose enhanced instruction is `w1E`. -/
def w1metaOut : Str := metaFormat "find relations".data w1E

/-- A chunk-model analysis that echoes a 50-character prefix of `w1E`. -/
def w1resp : Str := "Echo: ".data ++ w1E.take 50 ++ " (analysis complete)".data

/-- The chunk text used by the isolation witness. -/
def w1ct : Str := List.replicate 50 'y'

/-- Orchestrator arguments used by the isolation witness. -/
def w1args : EnhArgs :=
  { file_path := "ctx.txt".data, start_pos := 0, end_pos := 50,
    query := "who is related?".data, simple_prompt := "find relations".data,
    task_context := [], chunk_id := none }

/-- The chunk id the orchestrator derives for `w1args`. -/
def w1cid : Str := w1args.chunk_id.getD (chunkIdDefault w1args.start_pos w1args.end_pos)

/-- The chunk-stage report for the isolation witness. -/
def w1chunkOut : Str :=
  chunkFormat w1cid w1args.query w1args.start_pos w1args.end_pos w1ct w1resp

/-- The orchestrator's returned value for the isolation witness. -/
def w1out : Str := clean_chunk_output w1chunkOut w1cid w1args.start_pos w1args.end_pos

/-- Orchestrator arguments used by the failure-path witnesses. -/
def w5args : EnhArgs :=
  { file_path := "ctx.txt".data, start_pos := 0, end_pos := 10,
    query := "q?".data, simple_prompt := "prompt".data, task_context := [], chunk_id := none }

/-- Stored text used by the slice-read witness. -/
def w6content : Str := "abcdefghij".data

/-- Chunk-tool arguments used by the slice-read witness. -/
def w6args : ChunkArgs :=
  { file_path := "ctx.txt".data, start_pos := 2, end_pos := 7,
    query := "q?".data, enhanced_prompt := "inst".data, chunk_id := none }

/-- The statistics scenario string `"Hello world!\nThis is line 2.\nFinal line."`. -/
def w7text : Str := "Hello world!\nThis is line 2.\nFinal line.".data

/-! ## Individual lines of the formatted outputs (used to state line decompositions) -/

/-- Line `- Original prompt length: {len} characters  ` of the meta template
(note the two trailing blanks, as in the source). -/
def metaOrigLine (simple_prompt : Str) : Str :=
  "- Original prompt length: ".data ++ natDigits simple_prompt.length ++ " characters  ".data

/-- Line `- Enhanced prompt length: {len} characters` of the meta template. -/
def metaEnhLine (enhanced_prompt : Str) : Str :=
  "- Enhanced prompt length: ".data ++ natDigits enhanced_prompt.length ++ " characters".data

/-- Line `**Chunk Info:** {chunk_id} (position {start}:{end})` of the chunk-tool template. -/
def chunkInfoLine (chunk_id : Str) (start_pos end_pos : Int) : Str :=
  "**Chunk Info:** ".data ++ chunk_id ++ " (position ".data ++ intStr start_pos
    ++ ":".data ++ intStr end_pos ++ ")".data

/-- Line `**Query:** {query}` of the chunk-tool template. -/
def chunkQueryLine (query : Str) : Str := "**Query:** ".data ++ query

/-- Line `**Chunk Size:** {len:,} characters` of the chunk-tool template. -/
def chunkSizeLine (chunk_text : Str) : Str :=
  "**Chunk Size:** ".data ++ commaNat chunk_text.length ++ " characters".data

/-- Line `**Tokens Used:** ~{in} input + ~{out} output` of the chunk-tool template. -/
def chunkTokensLine (chunk_text response : Str) : Str :=
  "**Tokens Used:** ~".data ++ natDigits (chunk_text.length / 4) ++ " input + ~".data
    ++ natDigits (response.length / 4) ++ " output".data

/-- Line `**Chunk:** {chunk_id} (position {start}:{end})` of the clean template. -/
def cleanChunkLine (chunk_id : Str) (start_pos end_pos : Int) : Str :=
  "**Chunk:** ".data ++ chunk_id ++ " (position ".data ++ intStr start_pos
    ++ ":".data ++ intStr end_pos ++ ")".data

/-- Line `**Size:** {end-start:,} characters` of the clean template. -/
def cleanSizeLine (start_pos end_pos : Int) : Str :=
  "**Size:** ".data ++ commaInt (end_pos - start_pos) ++ " characters".data

/-! ## Basic lemmas about the string primitives -/

theorem splitNL_ne_nil (s : Str) : splitNL s ≠ [] := by
  cases s with
  | nil => simp [splitNL]
  | cons c rest =>
    simp only [splitNL]
    cases h : splitNL rest with
    | nil => simp
    | cons l ls =>
      by_cases hc : c = '\n' <;> simp [hc]

theorem splitNL_cons_nl (y : Str) : splitNL ('\n' :: y) = [] :: splitNL y := by
  simp only [splitNL]
  cases h : splitNL y with
  | nil => exact absurd h (splitNL_ne_nil y)
  | cons l ls => simp

theorem joinNL_cons (l : Str) (L : List Str) (hL : L ≠ []) :
    joinNL (l :: L) = l ++ '\n' :: joinNL L := by
  cases L with
  | nil => exact absurd rfl hL
  | cons m ls => rfl

theorem joinNL_splitNL (s : Str) : joinNL (splitNL s) = s := by
  induction s with
  | nil => rfl
  | cons c rest ih =>
    cases h : splitNL rest with
    | nil => exact absurd h (splitNL_ne_nil rest)
    | cons l ls =>
      rw [h] at ih
      by_cases hc : c = '\n'
      · subst hc
        have hs : splitNL ('\n' :: rest) = [] :: l :: ls := by rw [splitNL_cons_nl, h]
        rw [hs, joinNL_cons [] (l :: ls) (by simp), ih, List.nil_append]
      · have hs : splitNL (c :: rest) = (c :: l) :: ls := by
          simp only [splitNL, h]
          rw [if_neg hc]
        rw [hs]
        cases ls with
        | nil => simp only [joinNL] at ih ⊢; rw [ih]
        | cons m ms =>
          rw [joinNL_cons (c :: l) (m :: ms) (by simp)]
          rw [joinNL_cons l (m :: ms) (by simp)] at ih
          rw [← ih]
          simp

theorem splitNL_append (x y : Str) : splitNL (x ++ '\n' :: y) = splitNL x ++ splitNL y := by
  induction x with
  | nil => rw [List.nil_append, splitNL_cons_nl]; rfl
  | cons c rest ih =>
    rw [List.cons_append]
    by_cases hc : c = '\n'
    · subst hc
      rw [splitNL_cons_nl, splitNL_cons_nl, ih]
      rfl
    · simp only [splitNL]
      rw [ih]
      cases h : splitNL rest with
      | nil => exact absurd h (splitNL_ne_nil rest)
      | cons l ls => simp [hc]

theorem splitNL_no_nl (x : Str) (hx : '\n' ∉ x) : splitNL x = [x] := by
  induction x with
  | nil => rfl
  | cons c rest ih =>
    simp only [List.mem_cons, not_or] at hx
    simp only [splitNL, ih hx.2]
    rw [if_neg (fun h => hx.1 h.symm)]

theorem joinNL_append (L M : List Str) (hL : L ≠ []) (hM : M ≠ []) :
    joinNL (L ++ M) = joinNL L ++ '\n' :: joinNL M := by
  induction L with
  | nil => exact absurd rfl hL
  | cons l ls ih =>
    cases ls with
    | nil =>
      rw [List.cons_append, List.nil_append, joinNL_cons l M hM]
      rfl
    | cons m ms =>
      rw [List.cons_append, joinNL_cons l ((m :: ms) ++ M) (by simp), ih (by simp),
        joinNL_cons l (m :: ms) (by simp)]
      simp

theorem joinNL_take_isPre (L : List Str) (k : Nat) :
    ∃ t, joinNL (L.take k) ++ t = joinNL L := by
  rcases le_or_lt L.length k with h | h
  · exact ⟨[], by rw [List.take_of_length_le h, List.append_nil]⟩
  · by_cases hk0 : k = 0
    · subst hk0; exact ⟨joinNL L, by simp [joinNL]⟩
    · have h1 : L.take k ≠ [] := by
        intro hemp
        have := congrArg List.length hemp
        simp only [List.length_take, List.length_nil] at this
        omega
      have h2 : L.drop k ≠ [] := by
        intro hemp
        have := congrArg List.length hemp
        simp only [List.length_drop, List.length_nil] at this
        omega
      refine ⟨'\n' :: joinNL (L.drop k), ?_⟩
      conv_rhs => rw [← List.take_append_drop k L]
      rw [joinNL_append _ _ h1 h2]

theorem sub_of_mem_joinNL {l : Str} {L : List Str} (h : l ∈ L) : l <:+: joinNL L := by
  induction L with
  | nil => cases h
  | cons m ms ih =>
    rcases List.mem_cons.mp h with h1 | h2
    · subst h1
      cases ms with
      | nil => exact ⟨[], [], by simp [joinNL]⟩
      | cons a as =>
        rw [joinNL_cons _ _ (by simp)]
        exact ⟨[], '\n' :: joinNL (a :: as), by simp⟩
    · have hsub := ih h2
      cases ms with
      | nil => cases h2
      | cons a as =>
        rw [joinNL_cons _ _ (by simp)]
        obtain ⟨u, v, huv⟩ := hsub
        exact ⟨m ++ '\n' :: u, v, by
          simp only [List.append_assoc, List.cons_append]
          rw [← List.append_assoc u l v, huv]⟩

theorem takeWhile_isPre (p : Char → Bool) (l : Str) : l.takeWhile p <+: l := by
  induction l with
  | nil => exact ⟨[], rfl⟩
  | cons c rest ih =>
    rw [List.takeWhile_cons]
    by_cases hp : p c = true
    · rw [if_pos hp]
      obtain ⟨t, ht⟩ := ih
      exact ⟨t, by rw [List.cons_append, ht]⟩
    · rw [if_neg hp]
      exact ⟨c :: rest, rfl⟩

theorem takeWhileL_isPre (p : Str → Bool) (L : List Str) : L.takeWhile p <+: L := by
  induction L with
  | nil => exact ⟨[], rfl⟩
  | cons l ls ih =>
    rw [List.takeWhile_cons]
    by_cases hp : p l = true
    · rw [if_pos hp]
      obtain ⟨t, ht⟩ := ih
      exact ⟨t, by rw [List.cons_append, ht]⟩
    · rw [if_neg hp]
      exact ⟨l :: ls, rfl⟩

theorem takeWhileL_append_cases (p : Str → Bool) (L M : List Str) :
    (L ++ M).takeWhile p = L.takeWhile p ∨ (L ++ M).takeWhile p = L ++ M.takeWhile p := by
  induction L with
  | nil => right; rfl
  | cons l ls ih =>
    rw [List.cons_append, List.takeWhile_cons, List.takeWhile_cons]
    by_cases hp : p l = true
    · rw [if_pos hp, if_pos hp]
      rcases ih with h | h
      · left; rw [h]
      · right; rw [h, List.cons_append]
    · rw [if_neg hp, if_neg hp]
      left; rfl

theorem takeWhileL_all_append (p : Str → Bool) (L M : List Str)
    (hall : ∀ l ∈ L, p l = true) :
    (L ++ M).takeWhile p = L ++ M.takeWhile p := by
  induction L with
  | nil => rfl
  | cons l ls ih =>
    rw [List.cons_append, List.takeWhile_cons, if_pos (hall l (by simp)), List.cons_append,
      ih (fun x hx => hall x (by simp [hx]))]

theorem joinNL_pre_mono {L1 L2 : List Str} (h : L1 <+: L2) :
    ∃ t, joinNL L1 ++ t = joinNL L2 := by
  obtain ⟨M, hM⟩ := h
  subst hM
  cases hL : L1 with
  | nil => exact ⟨joinNL M, by simp [joinNL]⟩
  | cons l ls =>
    cases hM2 : M with
    | nil => exact ⟨[], by simp⟩
    | cons m ms =>
      exact ⟨'\n' :: joinNL (m :: ms),
        (joinNL_append (l :: ls) (m :: ms) (by simp) (by simp)).symm⟩

theorem preSplitChar {xs a b : Str} {c : Char} (hc : c ∉ xs) (h : xs <+: a ++ c :: b) :
    xs <+: a := by
  induction a generalizing xs with
  | nil =>
    cases xs with
    | nil => exact ⟨[], rfl⟩
    | cons y ys =>
      rw [List.nil_append] at h
      obtain ⟨t, ht⟩ := h
      rw [List.cons_append] at ht
      have : y = c := (List.cons.injEq ..).mp ht |>.1
      exact absurd (this ▸ List.mem_cons_self y ys) hc
  | cons x a' ih =>
    cases xs with
    | nil => exact ⟨x :: a', rfl⟩
    | cons y ys =>
      rw [List.cons_append] at h
      obtain ⟨t, ht⟩ := h
      rw [List.cons_append] at ht
      obtain ⟨h1, h2⟩ := (List.cons.injEq ..).mp ht
      subst h1
      have hys : ys <+: a' ++ c :: b := ⟨t, h2⟩
      obtain ⟨t', ht'⟩ := ih (fun hm => hc (List.mem_cons_of_mem y hm)) hys
      exact ⟨t', by rw [List.cons_append, ht']⟩

theorem subSplitChar {xs a b : Str} {c : Char} (hc : c ∉ xs) (h : xs <:+: a ++ c :: b) :
    xs <:+: a ∨ xs <:+: b := by
  induction a generalizing xs with
  | nil =>
    rw [List.nil_append] at h
    obtain ⟨u, v, huv⟩ := h
    cases u with
    | nil =>
      cases xs with
      | nil => exact Or.inl ⟨[], [], rfl⟩
      | cons y ys =>
        rw [List.nil_append, List.cons_append] at huv
        have : y = c := (List.cons.injEq ..).mp huv |>.1
        exact absurd (this ▸ List.mem_cons_self y ys) hc
    | cons z u' =>
      rw [List.cons_append, List.cons_append] at huv
      obtain ⟨h1, h2⟩ := (List.cons.injEq ..).mp huv
      exact Or.inr ⟨u', v, h2⟩
  | cons x a' ih =>
    obtain ⟨u, v, huv⟩ := h
    cases u with
    | nil =>
      rw [List.nil_append, List.cons_append] at huv
      cases xs with
      | nil => exact Or.inl ⟨[], x :: a', rfl⟩
      | cons y ys =>
        rw [List.cons_append] at huv
        obtain ⟨h1, h2⟩ := (List.cons.injEq ..).mp huv
        subst h1
        have hys : ys <+: a' ++ c :: b := ⟨v, h2⟩
        obtain ⟨t', ht'⟩ := preSplitChar (fun hm => hc (List.mem_cons_of_mem y hm)) hys
        exact Or.inl ⟨[], t', by rw [List.nil_append, List.cons_append, ht']⟩
    | cons z u' =>
      rw [List.cons_append, List.cons_append] at huv
      obtain ⟨h1, h2⟩ := (List.cons.injEq ..).mp huv
      have hsub : xs <:+: a' ++ c :: b := ⟨u', v, h2⟩
      rcases ih hc hsub with h | h
      · exact Or.inl (h.trans ⟨[x], [], by simp⟩)
      · exact Or.inr h

theorem subJoinNL {xs : Str} {L : List Str} (hnl : '\n' ∉ xs) (hL : L ≠ [])
    (h : xs <:+: joinNL L) : ∃ l ∈ L, xs <:+: l := by
  induction L with
  | nil => exact absurd rfl hL
  | cons l ls ih =>
    cases ls with
    | nil =>
      refine ⟨l, by simp, ?_⟩
      simpa [joinNL] using h
    | cons m ms =>
      rw [joinNL_cons l (m :: ms) (by simp)] at h
      rcases subSplitChar hnl h with h1 | h2
      · exact ⟨l, by simp, h1⟩
      · obtain ⟨l', hl', hsub⟩ := ih (by simp) h2
        exact ⟨l', by simp [hl'], hsub⟩

theorem lstrip_isSuf (s : Str) : lstrip s <:+ s := by
  induction s with
  | nil => exact ⟨[], rfl⟩
  | cons c rest ih =>
    by_cases hp : pyIsSpace c = true
    · have hh : lstrip (c :: rest) = lstrip rest := by
        rw [lstrip, lstrip, List.dropWhile_cons, if_pos hp]
      rw [hh]
      obtain ⟨u, hu⟩ := ih
      exact ⟨c :: u, by rw [List.cons_append, hu]⟩
    · have hh : lstrip (c :: rest) = c :: rest := by
        rw [lstrip, List.dropWhile_cons, if_neg hp]
      exact ⟨[], by rw [List.nil_append, hh]⟩

theorem rstrip_isPre (s : Str) : rstrip s <+: s := by
  obtain ⟨u, hu⟩ := lstrip_isSuf s.reverse
  refine ⟨u.reverse, ?_⟩
  have h2 : (u ++ lstrip s.reverse).reverse = s.reverse.reverse := by rw [hu]
  rw [List.reverse_append, List.reverse_reverse] at h2
  exact h2

theorem pyStrip_isSub (s : Str) : pyStrip s <:+: s := by
  obtain ⟨u, hu⟩ := lstrip_isSuf (rstrip s)
  obtain ⟨t, ht⟩ := rstrip_isPre s
  exact ⟨u, t, by rw [pyStrip, hu, ht]⟩

theorem rstrip_append_nl (x : Str) : rstrip (x ++ ['\n']) = rstrip x := by
  rw [rstrip, rstrip, List.reverse_append]
  simp only [List.reverse_cons, List.reverse_nil, List.nil_append, List.cons_append,
    List.dropWhile_cons]
  rw [if_pos (by decide : pyIsSpace '\n' = true)]

theorem pyStrip_append_nl (x : Str) : pyStrip (x ++ ['\n']) = pyStrip x := by
  rw [pyStrip, pyStrip, rstrip_append_nl]

theorem mem_natDigitsCore (fuel : Nat) :
    ∀ (n : Nat) (acc : Str) {c : Char}, c ∈ natDigitsCore fuel n acc →
      (∃ d, d < 10 ∧ c = digitChar d) ∨ c ∈ acc := by
  induction fuel with
  | zero => intro n acc c h; exact Or.inr h
  | succ f ih =>
    intro n acc c h
    simp only [natDigitsCore] at h
    by_cases h10 : n < 10
    · rw [if_pos h10] at h
      rcases List.mem_cons.mp h with h1 | h1
      · exact Or.inl ⟨n, h10, h1⟩
      · exact Or.inr h1
    · rw [if_neg h10] at h
      rcases ih (n / 10) (digitChar (n % 10) :: acc) h with h1 | h1
      · exact Or.inl h1
      · rcases List.mem_cons.mp h1 with h2 | h2
        · exact Or.inl ⟨n % 10, Nat.mod_lt _ (by norm_num), h2⟩
        · exact Or.inr h2

theorem mem_natDigits {c : Char} {n : Nat} (h : c ∈ natDigits n) :
    ∃ d, d < 10 ∧ c = digitChar d := by
  rcases mem_natDigitsCore (n + 1) n [] h with h1 | h1
  · exact h1
  · cases h1

theorem noNL_natDigits (n : Nat) : '\n' ∉ natDigits n := by
  intro h
  obtain ⟨d, hd, hc⟩ := mem_natDigits h
  interval_cases d <;> simp [digitChar] at hc

theorem noNL_intStr (i : Int) : '\n' ∉ intStr i := by
  rw [intStr]
  by_cases hi : i < 0
  · rw [if_pos hi]
    intro h
    rcases List.mem_cons.mp h with h1 | h2
    · cases h1
    · exact noNL_natDigits _ h2
  · rw [if_neg hi]
    exact noNL_natDigits _

theorem mem_group3R : {l : Str} → {c : Char} → c ∈ group3R l → c ∈ l ∨ c = ','
  | [], _, h => Or.inl h
  | [_], _, h => Or.inl h
  | [_, _], _, h => Or.inl h
  | [_, _, _], _, h => Or.inl h
  | a :: b :: d :: e :: rest, c, h => by
    have h' : c ∈ a :: b :: d :: ',' :: group3R (e :: rest) := h
    simp only [List.mem_cons] at h' ⊢
    rcases h' with h1 | h1 | h1 | h1 | h1
    · tauto
    · tauto
    · tauto
    · exact Or.inr h1
    · rcases mem_group3R h1 with h2 | h2
      · simp only [List.mem_cons] at h2; tauto
      · exact Or.inr h2

theorem noNL_commaNat (n : Nat) : '\n' ∉ commaNat n := by
  intro h
  rw [commaNat, List.mem_reverse] at h
  rcases mem_group3R h with h1 | h1
  · rw [List.mem_reverse] at h1
    exact noNL_natDigits n h1
  · cases h1

theorem noNL_commaInt (i : Int) : '\n' ∉ commaInt i := by
  rw [commaInt]
  by_cases hi : i < 0
  · rw [if_pos hi]
    intro h
    rcases List.mem_cons.mp h with h1 | h2
    · cases h1
    · exact noNL_commaNat _ h2
  · rw [if_neg hi]
    exact noNL_commaNat _

theorem findLineIdx_eq_none {p : Str → Bool} {L : List Str}
    (h : ∀ l ∈ L, p l = false) : findLineIdx p L = none := by
  induction L with
  | nil => rfl
  | cons l ls ih =>
    rw [findLineIdx, if_neg (by simp [h l (by simp)]), ih (fun x hx => h x (by simp [hx]))]
    rfl

theorem containsSubB_iff {pat s : Str} : containsSubB pat s = true ↔ pat <:+: s := by
  simp [containsSubB]

theorem containsSubB_false_iff {pat s : Str} : containsSubB pat s = false ↔ ¬pat <:+: s := by
  simp [containsSubB]

/-! ## No-newline facts about template lines -/

theorem noNL_append {x y : Str} (hx : '\n' ∉ x) (hy : '\n' ∉ y) : '\n' ∉ x ++ y := by
  rw [List.mem_append]
  tauto

theorem noNL_metaOrigLine (sp : Str) : '\n' ∉ metaOrigLine sp := by
  have h1 := noNL_natDigits sp.length
  have h2 : '\n' ∉ "- Original prompt length: ".data := by decide
  have h3 : '\n' ∉ " characters  ".data := by decide
  intro h
  simp only [metaOrigLine, List.mem_append] at h
  tauto

theorem noNL_metaEnhLine (E : Str) : '\n' ∉ metaEnhLine E := by
  have h1 := noNL_natDigits E.length
  have h2 : '\n' ∉ "- Enhanced prompt length: ".data := by decide
  have h3 : '\n' ∉ " characters".data := by decide
  intro h
  simp only [metaEnhLine, List.mem_append] at h
  tauto

theorem noNL_chunkInfoLine {cid : Str} (s e : Int) (hcid : '\n' ∉ cid) :
    '\n' ∉ chunkInfoLine cid s e := by
  have h1 := noNL_intStr s
  have h2 := noNL_intStr e
  have h3 : '\n' ∉ "**Chunk Info:** ".data := by decide
  have h4 : '\n' ∉ " (position ".data := by decide
  have h5 : '\n' ∉ ":".data := by decide
  have h6 : '\n' ∉ ")".data := by decide
  intro h
  simp only [chunkInfoLine, List.mem_append] at h
  tauto

theorem noNL_chunkQueryLine {q : Str} (hq : '\n' ∉ q) : '\n' ∉ chunkQueryLine q := by
  have h2 : '\n' ∉ "**Query:** ".data := by decide
  intro h
  simp only [chunkQueryLine, List.mem_append] at h
  tauto

theorem noNL_chunkSizeLine (ct : Str) : '\n' ∉ chunkSizeLine ct := by
  have h1 := noNL_commaNat ct.length
  have h2 : '\n' ∉ "**Chunk Size:** ".data := by decide
  have h3 : '\n' ∉ " characters".data := by decide
  intro h
  simp only [chunkSizeLine, List.mem_append] at h
  tauto

theorem noNL_chunkTokensLine (ct resp : Str) : '\n' ∉ chunkTokensLine ct resp := by
  have h1 := noNL_natDigits (ct.length / 4)
  have h2 := noNL_natDigits (resp.length / 4)
  have h3 : '\n' ∉ "**Tokens Used:** ~".data := by decide
  have h4 : '\n' ∉ " input + ~".data := by decide
  have h5 : '\n' ∉ " output".data := by decide
  intro h
  simp only [chunkTokensLine, List.mem_append] at h
  tauto

theorem noNL_cleanChunkLine {cid : Str} (s e : Int) (hcid : '\n' ∉ cid) :
    '\n' ∉ cleanChunkLine cid s e := by
  have h1 := noNL_intStr s
  have h2 := noNL_intStr e
  have h3 : '\n' ∉ "**Chunk:** ".data := by decide
  have h4 : '\n' ∉ " (position ".data := by decide
  have h5 : '\n' ∉ ":".data := by decide
  have h6 : '\n' ∉ ")".data := by decide
  intro h
  simp only [cleanChunkLine, List.mem_append] at h
  tauto

theorem noNL_cleanSizeLine (s e : Int) : '\n' ∉ cleanSizeLine s e := by
  have h1 := noNL_commaInt (e - s)
  have h2 : '\n' ∉ "**Size:** ".data := by decide
  have h3 : '\n' ∉ " characters".data := by decide
  intro h
  simp only [cleanSizeLine, List.mem_append] at h
  tauto

/-! ## Line decompositions of the formatted outputs -/

theorem metaFormat_splitNL (sp E : Str) :
    splitNL (metaFormat sp E) =
      markEPGS :: [] :: (splitNL E ++
        [[], "---".data, "Optimization Summary:".data, metaOrigLine sp, metaEnhLine E,
          "- Optimized for chunk-based processing: Yes".data,
          "- CoT complexity reduction: Applied".data]) := by
  have h0 : metaFormat sp E =
      markEPGS ++ '\n' :: ('\n' :: (E ++ '\n' :: ('\n' :: ("---".data ++ '\n' ::
        ("Optimization Summary:".data ++ '\n' :: (metaOrigLine sp ++ '\n' ::
          (metaEnhLine E ++ '\n' ::
            ("- Optimized for chunk-based processing: Yes".data ++ '\n' ::
              "- CoT complexity reduction: Applied".data)))))))) := by
    simp only [metaFormat, markEPGS, metaOrigLine, metaEnhLine, List.append_assoc,
      List.cons_append, List.nil_append]
  rw [h0, splitNL_append, splitNL_cons_nl, splitNL_append, splitNL_cons_nl, splitNL_append,
    splitNL_append, splitNL_append, splitNL_append, splitNL_append,
    splitNL_no_nl markEPGS (by decide),
    splitNL_no_nl "---".data (by decide),
    splitNL_no_nl "Optimization Summary:".data (by decide),
    splitNL_no_nl (metaOrigLine sp) (noNL_metaOrigLine sp),
    splitNL_no_nl (metaEnhLine E) (noNL_metaEnhLine E),
    splitNL_no_nl "- Optimized for chunk-based processing: Yes".data (by decide),
    splitNL_no_nl "- CoT complexity reduction: Applied".data (by decide)]
  simp

set_option maxRecDepth 4000 in
theorem chunkFormat_splitNL (cid q : Str) (s e : Int) (ct resp : Str)
    (hcid : '\n' ∉ cid) (hq : '\n' ∉ q) :
    splitNL (chunkFormat cid q s e ct resp) =
      markCPR :: [] :: chunkInfoLine cid s e :: chunkQueryLine q :: chunkSizeLine ct
        :: [] :: markAR :: (splitNL (pyStrip resp) ++
          [[], "---".data, "**Processing Status:** Complete".data, chunkTokensLine ct resp]) := by
  have h0 : chunkFormat cid q s e ct resp =
      markCPR ++ '\n' :: ('\n' :: (chunkInfoLine cid s e ++ '\n' :: (chunkQueryLine q ++ '\n' ::
        (chunkSizeLine ct ++ '\n' :: ('\n' :: (markAR ++ '\n' :: (pyStrip resp ++ '\n' ::
          ('\n' :: ("---".data ++ '\n' :: ("**Processing Status:** Complete".data ++ '\n' ::
            chunkTokensLine ct resp)))))))))) := by
    simp only [chunkFormat, markCPR, markAR, chunkInfoLine, chunkQueryLine, chunkSizeLine,
      chunkTokensLine, List.append_assoc, List.cons_append, List.nil_append]
  rw [h0, splitNL_append, splitNL_cons_nl, splitNL_append, splitNL_append, splitNL_append,
    splitNL_cons_nl, splitNL_append, splitNL_append, splitNL_cons_nl, splitNL_append,
    splitNL_append,
    splitNL_no_nl markCPR (by decide),
    splitNL_no_nl (chunkInfoLine cid s e) (noNL_chunkInfoLine s e hcid),
    splitNL_no_nl (chunkQueryLine q) (noNL_chunkQueryLine hq),
    splitNL_no_nl (chunkSizeLine ct) (noNL_chunkSizeLine ct),
    splitNL_no_nl markAR (by decide),
    splitNL_no_nl "---".data (by decide),
    splitNL_no_nl "**Processing Status:** Complete".data (by decide),
    splitNL_no_nl (chunkTokensLine ct resp) (noNL_chunkTokensLine ct resp)]
  simp

set_option maxRecDepth 4000 in
theorem cleanTemplate_splitNL (cid : Str) (s e : Int) (ac : Str) (hcid : '\n' ∉ cid) :
    splitNL (cleanTemplate cid s e ac) =
      "**Chunk Analysis Result**".data :: [] :: cleanChunkLine cid s e :: cleanSizeLine s e
        :: [] :: "**Analysis:**".data :: (splitNL ac ++
          [[], "**Status:** Processing complete".data]) := by
  have h0 : cleanTemplate cid s e ac =
      "**Chunk Analysis Result**".data ++ '\n' :: ('\n' :: (cleanChunkLine cid s e ++ '\n' ::
        (cleanSizeLine s e ++ '\n' :: ('\n' :: ("**Analysis:**".data ++ '\n' :: (ac ++ '\n' ::
          ('\n' :: "**Status:** Processing complete".data))))))) := by
    simp only [cleanTemplate, cleanChunkLine, cleanSizeLine, List.append_assoc,
      List.cons_append, List.nil_append]
  rw [h0, splitNL_append, splitNL_cons_nl, splitNL_append, splitNL_append, splitNL_cons_nl,
    splitNL_append, splitNL_append, splitNL_cons_nl,
    splitNL_no_nl "**Chunk Analysis Result**".data (by decide),
    splitNL_no_nl (cleanChunkLine cid s e) (noNL_cleanChunkLine s e hcid),
    splitNL_no_nl (cleanSizeLine s e) (noNL_cleanSizeLine s e),
    splitNL_no_nl "**Analysis:**".data (by decide),
    splitNL_no_nl "**Status:** Processing complete".data (by decide)]
  simp

/-! ## Branch behaviour of extraction and sanitization -/

theorem extract_eq_of_found (mo : Str) (i : Nat)
    (hfind : findLineIdx (fun l => containsSubB markEPGS l) (splitNL mo) = some i) :
    extract_enhanced_prompt mo =
      pyStrip (joinNL (((splitNL mo).drop (i + 2)).takeWhile
        (fun l => !(pyStrip l == "---".data)))) := by
  simp only [extract_enhanced_prompt, hfind, Option.map_some']

theorem extract_eq_of_no_structure (mo : Str)
    (h1 : ∀ l ∈ splitNL mo, containsSubB markEPGS l = false)
    (h2 : ∀ l ∈ splitNL mo,
      (!(pyStrip l).isEmpty && !(("Enhanced Prompt".data).isPrefixOf l)
        && !(("---".data).isPrefixOf l)) = false) :
    extract_enhanced_prompt mo = pyStrip mo := by
  simp only [extract_enhanced_prompt, findLineIdx_eq_none h1, findLineIdx_eq_none h2,
    Option.map_none']

theorem clean_eq_of_found (co cid : Str) (s e : Int) (i : Nat)
    (hfind : findLineIdx (fun l => containsSubB markAR l) (splitNL co) = some i) :
    clean_chunk_output co cid s e =
      cleanTemplate cid s e
        (pyStrip (joinNL (((splitNL co).drop (i + 1)).takeWhile cleanKeepPred))) := by
  simp only [clean_chunk_output, hfind, Option.map_some', Option.getD_some]

theorem clean_eq_of_no_markers (co cid : Str) (s e : Int)
    (h1 : ∀ l ∈ splitNL co, containsSubB markAR l = false)
    (h2 : ∀ l ∈ splitNL co, containsSubB markCPR l = false) :
    clean_chunk_output co cid s e =
      cleanTemplate cid s e
        (pyStrip (joinNL (((splitNL co).drop (min 5 (splitNL co).length)).takeWhile
          cleanKeepPred))) := by
  simp only [clean_chunk_output, findLineIdx_eq_none h1, findLineIdx_eq_none h2,
    Option.map_none', Option.getD_none]

theorem extract_metaFormat (sp E : Str)
    (hE : ∀ l ∈ splitNL E, pyStrip l ≠ "---".data) :
    extract_enhanced_prompt (metaFormat sp E) = pyStrip E := by
  have hfind : findLineIdx (fun l => containsSubB markEPGS l) (splitNL (metaFormat sp E))
      = some 0 := by
    rw [metaFormat_splitNL, findLineIdx, if_pos (by decide)]
  rw [extract_eq_of_found _ 0 hfind, metaFormat_splitNL]
  have hdrop :
      ((markEPGS :: [] :: (splitNL E ++
        [[], "---".data, "Optimization Summary:".data, metaOrigLine sp, metaEnhLine E,
          "- Optimized for chunk-based processing: Yes".data,
          "- CoT complexity reduction: Applied".data])).drop (0 + 2)) =
      splitNL E ++
        [[], "---".data, "Optimization Summary:".data, metaOrigLine sp, metaEnhLine E,
          "- Optimized for chunk-based processing: Yes".data,
          "- CoT complexity reduction: Applied".data] := by
    rfl
  rw [hdrop]
  have hall : ∀ l ∈ splitNL E, (fun l => !(pyStrip l == "---".data)) l = true := by
    intro l hl
    simp only [Bool.not_eq_eq_eq_not, Bool.not_true, beq_eq_false_iff_ne, ne_eq]
    exact hE l hl
  rw [takeWhileL_all_append _ _ _ hall, List.takeWhile_cons, if_pos (by decide),
    List.takeWhile_cons, if_neg (by decide),
    joinNL_append (splitNL E) [[]] (splitNL_ne_nil E) (by simp), joinNL_splitNL]
  simp only [joinNL]
  exact pyStrip_append_nl E

theorem pre_to_sub {xs a : Str} (h : xs <+: a) : xs <:+: a := by
  obtain ⟨t, ht⟩ := h
  exact ⟨[], t, by rw [List.nil_append, ht]⟩

theorem sub_append_right {xs a b : Str} (h : xs <:+: a) : xs <:+: a ++ b := by
  obtain ⟨u, v, huv⟩ := h
  exact ⟨u, v ++ b, by rw [← List.append_assoc, huv]⟩

set_option maxRecDepth 4000 in
theorem clean_chunkFormat (cid q : Str) (s e : Int) (ct resp : Str)
    (hcid : '\n' ∉ cid) (hq : '\n' ∉ q)
    (hm2 : containsSubB markAR (chunkInfoLine cid s e) = false)
    (hm3 : containsSubB markAR (chunkQueryLine q) = false)
    (hm4 : containsSubB markAR (chunkSizeLine ct) = false) :
    ∃ ac, clean_chunk_output (chunkFormat cid q s e ct resp) cid s e = cleanTemplate cid s e ac
      ∧ ac <:+: pyStrip resp ++ ['\n'] := by
  have hb0 : containsSubB markAR markCPR = false := by decide
  have hb1 : containsSubB markAR ([] : Str) = false := by decide
  have hb5 : containsSubB markAR markAR = true := by decide
  have hfind : findLineIdx (fun l => containsSubB markAR l)
      (splitNL (chunkFormat cid q s e ct resp)) = some 6 := by
    rw [chunkFormat_splitNL cid q s e ct resp hcid hq]
    simp [findLineIdx, hb0, hb1, hm2, hm3, hm4, hb5]
  rw [clean_eq_of_found _ _ _ _ 6 hfind, chunkFormat_splitNL cid q s e ct resp hcid hq]
  have hdrop :
      ((markCPR :: [] :: chunkInfoLine cid s e :: chunkQueryLine q :: chunkSizeLine ct
        :: [] :: markAR :: (splitNL (pyStrip resp) ++
          [[], "---".data, "**Processing Status:** Complete".data,
            chunkTokensLine ct resp])).drop (6 + 1)) =
      splitNL (pyStrip resp) ++
        [[], "---".data, "**Processing Status:** Complete".data, chunkTokensLine ct resp] := by
    rfl
  rw [hdrop]
  rcases takeWhileL_append_cases cleanKeepPred (splitNL (pyStrip resp))
      [[], "---".data, "**Processing Status:** Complete".data, chunkTokensLine ct resp]
    with hcase | hcase
  · rw [hcase]
    refine ⟨_, rfl, ?_⟩
    obtain ⟨t, ht⟩ := joinNL_pre_mono (takeWhileL_isPre cleanKeepPred (splitNL (pyStrip resp)))
    rw [joinNL_splitNL] at ht
    exact sub_append_right
      ((pyStrip_isSub _).trans (pre_to_sub ⟨t, ht⟩))
  · rw [hcase, List.takeWhile_cons, if_pos (by decide), List.takeWhile_cons, if_neg (by decide),
      joinNL_append (splitNL (pyStrip resp)) [[]] (splitNL_ne_nil _) (by simp), joinNL_splitNL]
    refine ⟨_, rfl, ?_⟩
    simp only [joinNL]
    exact pyStrip_isSub _

/-- Helper for C1: nothing of length ≥ 200 is an infix of a short line. -/
theorem not_sub_of_long {xs l : Str} (hx : 200 ≤ xs.length) (hl : l.length < 200) :
    ¬xs <:+: l := by
  intro h
  have := h.length_le
  omega

/-- C1: context isolation.  For every successful `EnhancedChunkTool.execute`
invocation in which the internal enhancement stage produced `metaOut`, hence
the enhanced instruction `E = _extract_enhanced_prompt(metaOut)` with
`len(E) ≥ 200`, and the chunk stage returned the standard chunk-tool report
whose model analysis `resp` does not contain `E` itself (it may echo shorter
fragments, e.g. a short prefix), the exact string `E` is not a substring of
the value the orchestrator returns.  Side conditions: `E` is a single line of
synthetic characters, and the caller-supplied `chunk_id`/`query` metadata
neither spoof the internal `**Analysis Result:**` marker nor blow a line up
to 200 characters. -/
theorem C1_context_isolation
    (metaExec : MetaArgs → ToolResult) (chunkExec : ChunkArgs → ToolResult)
    (args : EnhArgs) (metaOut ct resp out : Str)
    (hmeta : metaExec ⟨args.simple_prompt, args.task_context⟩ = .ok metaOut)
    (hchunk : chunkExec ⟨args.file_path, args.start_pos, args.end_pos, args.query,
        extract_enhanced_prompt metaOut,
        some (args.chunk_id.getD (chunkIdDefault args.start_pos args.end_pos))⟩
      = .ok (chunkFormat (args.chunk_id.getD (chunkIdDefault args.start_pos args.end_pos))
          args.query args.start_pos args.end_pos ct resp))
    (hE : 200 ≤ (extract_enhanced_prompt metaOut).length)
    (hnl : '\n' ∉ extract_enhanced_prompt metaOut)
    (hecho : ¬extract_enhanced_prompt metaOut <:+: pyStrip resp)
    (hcid : '\n' ∉ args.chunk_id.getD (chunkIdDefault args.start_pos args.end_pos))
    (hq : '\n' ∉ args.query)
    (hm2 : containsSubB markAR
      (chunkInfoLine (args.chunk_id.getD (chunkIdDefault args.start_pos args.end_pos))
        args.start_pos args.end_pos) = false)
    (hm3 : containsSubB markAR (chunkQueryLine args.query) = false)
    (hm4 : containsSubB markAR (chunkSizeLine ct) = false)
    (hlen1 : (args.chunk_id.getD (chunkIdDefault args.start_pos args.end_pos)).length
      + (intStr args.start_pos).length + (intStr args.end_pos).length ≤ 150)
    (hlen2 : (commaInt (args.end_pos - args.start_pos)).length ≤ 150)
    (hok : (enhancedChunkExecute true metaExec chunkExec args).1 = .ok out) :
    ¬extract_enhanced_prompt metaOut <:+: out := by
  set cid := args.chunk_id.getD (chunkIdDefault args.start_pos args.end_pos) with hcid_def
  set E := extract_enhanced_prompt metaOut with hE_def
  by_cases hval : args.file_path = [] ∨ args.query = [] ∨ args.simple_prompt = []
  · simp [enhancedChunkExecute, hval] at hok
  · simp only [enhancedChunkExecute, Bool.not_true, Bool.false_eq_true, if_false, if_neg hval,
      ← hcid_def, ← hE_def] at hok
    rw [hmeta] at hok
    simp only at hok
    rw [hchunk] at hok
    simp only [Except.ok.injEq] at hok
    obtain ⟨ac, hac_eq, hac_sub⟩ :=
      clean_chunkFormat cid args.query args.start_pos args.end_pos ct resp hcid hq hm2 hm3 hm4
    rw [hac_eq] at hok
    subst hok
    intro hsub
    have hlines :
        splitNL (cleanTemplate cid args.start_pos args.end_pos ac) =
          "**Chunk Analysis Result**".data :: [] :: cleanChunkLine cid args.start_pos args.end_pos
            :: cleanSizeLine args.start_pos args.end_pos :: [] :: "**Analysis:**".data
            :: (splitNL ac ++ [[], "**Status:** Processing complete".data]) :=
      cleanTemplate_splitNL cid args.start_pos args.end_pos ac hcid
    have hjoin : cleanTemplate cid args.start_pos args.end_pos ac
        = joinNL (splitNL (cleanTemplate cid args.start_pos args.end_pos ac)) :=
      (joinNL_splitNL _).symm
    rw [hjoin] at hsub
    obtain ⟨l, hl_mem, hl_sub⟩ := hsub |> subJoinNL hnl (splitNL_ne_nil _)
    rw [hlines] at hl_mem
    have hlen_cl : (cleanChunkLine cid args.start_pos args.end_pos).length < 200 := by
      have e1 : ("**Chunk:** ".data).length = 11 := by decide
      have e2 : (" (position ".data).length = 11 := by decide
      have e3 : (":".data).length = 1 := by decide
      have e4 : (")".data).length = 1 := by decide
      simp only [cleanChunkLine, List.length_append, e1, e2, e3, e4]
      omega
    have hlen_sz : (cleanSizeLine args.start_pos args.end_pos).length < 200 := by
      have e1 : ("**Size:** ".data).length = 10 := by decide
      have e2 : (" characters".data).length = 11 := by decide
      simp only [cleanSizeLine, List.length_append, e1, e2]
      omega
    rcases List.mem_cons.mp hl_mem with h | hl_mem
    · exact not_sub_of_long hE (by rw [h]; decide) hl_sub
    rcases List.mem_cons.mp hl_mem with h | hl_mem
    · exact not_sub_of_long hE (by rw [h]; decide) hl_sub
    rcases List.mem_cons.mp hl_mem with h | hl_mem
    · exact not_sub_of_long hE (h ▸ hlen_cl) hl_sub
    rcases List.mem_cons.mp hl_mem with h | hl_mem
    · exact not_sub_of_long hE (h ▸ hlen_sz) hl_sub
    rcases List.mem_cons.mp hl_mem with h | hl_mem
    · exact not_sub_of_long hE (by rw [h]; decide) hl_sub
    rcases List.mem_cons.mp hl_mem with h | hl_mem
    · exact not_sub_of_long hE (by rw [h]; decide) hl_sub
    rcases List.mem_append.mp hl_mem with hmem | hmem
    · have hl_ac : l <:+: ac := by
        have := sub_of_mem_joinNL hmem
        rwa [joinNL_splitNL] at this
      have hEac : E <:+: ac := hl_sub.trans hl_ac
      have hEA : E <:+: pyStrip resp ++ '\n' :: [] := hEac.trans hac_sub
      rcases subSplitChar hnl hEA with h | h
      · exact hecho h
      · exact not_sub_of_long hE (by decide) h
    rcases List.mem_cons.mp hmem with h | hmem
    · exact not_sub_of_long hE (by rw [h]; decide) hl_sub
    rcases List.mem_cons.mp hmem with h | hmem
    · exact not_sub_of_long hE (by rw [h]; decide) hl_sub
    · cases hmem

/-! ## Floor vs ceiling chunk counts -/

theorem ceil_fdiv_char (a b : Int) (hb : 0 < b) :
    (a + b - 1).fdiv b = a.fdiv b + (if b ∣ a then 0 else 1) := by
  rw [Int.fdiv_eq_ediv _ (le_of_lt hb), Int.fdiv_eq_ediv _ (le_of_lt hb)]
  have hmod : b * (a / b) + a % b = a := Int.ediv_add_emod a b
  have hr0 : 0 ≤ a % b := Int.emod_nonneg a (ne_of_gt hb)
  have hrb : a % b < b := Int.emod_lt_of_pos a hb
  have hdvd : b ∣ a ↔ a % b = 0 := Int.dvd_iff_emod_eq_zero
  have key : a + b - 1 = (a % b + b - 1) + (a / b) * b := by
    conv_lhs => rw [← hmod]
    ring
  rw [key, Int.add_mul_ediv_right _ _ (ne_of_gt hb)]
  by_cases hd : b ∣ a
  · have hr : a % b = 0 := hdvd.mp hd
    rw [if_pos hd, hr]
    have hz : (0 + b - 1) / b = 0 := Int.ediv_eq_zero_of_lt (by omega) (by omega)
    omega
  · have hr : a % b ≠ 0 := fun h => hd (hdvd.mpr h)
    rw [if_neg hd]
    have key2 : a % b + b - 1 = (a % b - 1) + 1 * b := by ring
    rw [key2, Int.add_mul_ediv_right _ _ (ne_of_gt hb)]
    have hz : (a % b - 1) / b = 0 := Int.ediv_eq_zero_of_lt (by omega) (by omega)
    omega

/-- C2 (amended): `_get_chunk_info` reports
`max(1, (total_size - overlap) // (chunk_size - overlap))` chunks with floor
division; this equals the claimed `max(1, ceil(...))` exactly when
`total_size ≤ chunk_size` or `(chunk_size - overlap)` divides
`(total_size - overlap)`, and is otherwise exactly one less. -/
theorem C2_chunk_count_floor_vs_ceil (T c o : Int) (ho : 0 ≤ o) (hoc : o < c) :
    (num_chunks T c o = specNumChunks T c o ↔ (T ≤ c ∨ (c - o) ∣ (T - o)))
    ∧ specNumChunks T c o - 1 ≤ num_chunks T c o
    ∧ num_chunks T c o ≤ specNumChunks T c o := by
  have hb : 0 < c - o := by omega
  have hceil := ceil_fdiv_char (T - o) (c - o) hb
  rw [num_chunks, specNumChunks, hceil]
  have hflt1 : (T - o).fdiv (c - o) < 1 → T - o < 1 * (c - o) := by
    rw [Int.fdiv_eq_ediv _ (le_of_lt hb)]
    exact (Int.ediv_lt_iff_lt_mul hb).mp
  have hflt2 : T - o < 1 * (c - o) → (T - o).fdiv (c - o) < 1 := by
    rw [Int.fdiv_eq_ediv _ (le_of_lt hb)]
    exact (Int.ediv_lt_iff_lt_mul hb).mpr
  by_cases hd : (c - o) ∣ (T - o)
  · rw [if_pos hd]
    exact ⟨⟨fun _ => Or.inr hd, fun _ => by omega⟩, by omega, by omega⟩
  · rw [if_neg hd]
    have hTceq : T = c → (c - o) ∣ (T - o) := by
      intro h
      rw [h]
    refine ⟨⟨?_, ?_⟩, by omega, by omega⟩
    · intro heq
      left
      have h1 : (T - o).fdiv (c - o) ≤ 0 := by omega
      have := hflt1 (by omega)
      omega
    · intro hor
      rcases hor with hTc | hdd
      · have hTc' : T < c := by
          rcases lt_or_eq_of_le hTc with h | h
          · exact h
          · exact absurd (hTceq h) hd
        have := hflt2 (by omega)
        omega
      · exact absurd hdd hd

/-! ## Support lemmas for the read-slice and statistics claims -/

theorem seekRead_eq_sliceSpec (content : Str) (s e : Int) (hs : 0 ≤ s) :
    seekRead content s e = sliceSpec content s e := by
  rw [seekRead, sliceSpec, List.take_drop]
  have : s.toNat + (e - s).toNat = e.toNat ∨ (e - s).toNat = 0 ∧ e.toNat ≤ s.toNat := by omega
  rcases this with h | ⟨h1, h2⟩
  · rw [h]
  · rw [h1, Nat.add_zero]
    have d1 : List.drop s.toNat (List.take s.toNat content) = [] :=
      List.drop_eq_nil_of_le (by simp [List.length_take])
    have d2 : List.drop s.toNat (List.take e.toNat content) = [] :=
      List.drop_eq_nil_of_le (by simp only [List.length_take]; omega)
    rw [d1, d2]

theorem seekRead_length (content : Str) (s e : Int) (hs : 0 ≤ s) (hse : s < e)
    (hlen : e ≤ (content.length : Int)) :
    (seekRead content s e).length = (e - s).toNat := by
  rw [seekRead]
  simp only [List.length_take, List.length_drop]
  omega

theorem splitNL_length (s : Str) : (splitNL s).length = s.count '\n' + 1 := by
  induction s with
  | nil => rfl
  | cons c rest ih =>
    by_cases hc : c = '\n'
    · subst hc
      rw [splitNL_cons_nl]
      simp [List.count_cons, ih]
    · cases h : splitNL rest with
      | nil => exact absurd h (splitNL_ne_nil rest)
      | cons l ls =>
        have hs : splitNL (c :: rest) = (c :: l) :: ls := by
          simp only [splitNL, h]
          rw [if_neg hc]
        rw [hs]
        rw [h] at ih
        simp only [List.length_cons] at ih ⊢
        have hcnt : (c :: rest).count '\n' = rest.count '\n' := by
          simp [List.count_cons, fun h => hc h]
        omega

/-! ## Claim theorems, counterexamples and witnesses -/

/-- C2 counterexample: at `total_size = 10000` with the default
`chunk_size = 8000`, `overlap = 200`, the code reports `max(1, 9800 // 7800) = 1`
chunk while the claimed ceiling formula gives 2. -/
theorem C2_counterexample :
    num_chunks 10000 8000 200 = 1 ∧ specNumChunks 10000 8000 200 = 2
    ∧ num_chunks 10000 8000 200 ≠ specNumChunks 10000 8000 200 := by
  decide

/-- C2 witness: the floor-vs-ceiling relation instantiated at
`(10000, 8000, 200)`. -/
theorem C2_witness :
    (0 : Int) ≤ 200 ∧ (200 : Int) < 8000
    ∧ ((num_chunks 10000 8000 200 = specNumChunks 10000 8000 200 ↔
        ((10000 : Int) ≤ 8000 ∨ ((8000 : Int) - 200) ∣ ((10000 : Int) - 200)))
      ∧ specNumChunks 10000 8000 200 - 1 ≤ num_chunks 10000 8000 200
      ∧ num_chunks 10000 8000 200 ≤ specNumChunks 10000 8000 200) :=
  ⟨by decide, by decide, C2_chunk_count_floor_vs_ceil 10000 8000 200 (by decide) (by decide)⟩

/-- C3: the boundary list of `_get_chunk_info` for `(total_size, chunk_size,
overlap) = (10000, 8000, 200)` is the single range `[0, 8000)`: position 9000
is uncovered and no reported boundary ends at `total_size`, contradicting the
claimed gap-free coverage of `[0, total_size)` — the floor division in
`num_chunks` (line 147) under-counts, so the loop never reaches the tail. -/
theorem C3_boundary_gap_eval :
    chunkBoundaries 10000 8000 200 = [(0, 8000)]
    ∧ ¬coveredBy (chunkBoundaries 10000 8000 200) 9000
    ∧ (∀ p ∈ chunkBoundaries 10000 8000 200, p.2 ≠ 10000) := by
  decide

/-- C4: `_extract_enhanced_prompt` and `_clean_chunk_output` are total
functions of their input string; when the success marker and the fallback
structure are absent the extractor degrades to the whole stripped text;
sanitization always yields a well-formed clean report, and with no
`**Analysis Result:**` / `**Chunk Processing Result**` markers it degrades to
skipping the fixed `min(5, len(lines))` leading metadata lines. -/
theorem C4_extraction_sanitization_total (s t chunk_id : Str) (start_pos end_pos : Int) :
    ((∀ l ∈ splitNL s, containsSubB markEPGS l = false) →
      (∀ l ∈ splitNL s,
        (!(pyStrip l).isEmpty && !(("Enhanced Prompt".data).isPrefixOf l)
          && !(("---".data).isPrefixOf l)) = false) →
      extract_enhanced_prompt s = pyStrip s)
    ∧ (∃ ac, clean_chunk_output t chunk_id start_pos end_pos
        = cleanTemplate chunk_id start_pos end_pos ac)
    ∧ ((∀ l ∈ splitNL t, containsSubB markAR l = false) →
      (∀ l ∈ splitNL t, containsSubB markCPR l = false) →
      clean_chunk_output t chunk_id start_pos end_pos
        = cleanTemplate chunk_id start_pos end_pos
            (pyStrip (joinNL (((splitNL t).drop (min 5 (splitNL t).length)).takeWhile
              cleanKeepPred)))) :=
  ⟨fun h1 h2 => extract_eq_of_no_structure s h1 h2, ⟨_, rfl⟩,
    fun h1 h2 => clean_eq_of_no_markers t chunk_id start_pos end_pos h1 h2⟩

/-- C4 witness: the pathological inputs of the spec — a lone separator line,
the empty string, and marker-free text. -/
theorem C4_witness :
    extract_enhanced_prompt "---".data = pyStrip "---".data
    ∧ extract_enhanced_prompt [] = pyStrip []
    ∧ clean_chunk_output "plain text\nno markers".data "cid".data 0 10
        = cleanTemplate "cid".data 0 10
            (pyStrip (joinNL (((splitNL "plain text\nno markers".data).drop
              (min 5 (splitNL "plain text\nno markers".data).length)).takeWhile
                cleanKeepPred))) :=
  ⟨(C4_extraction_sanitization_total "---".data [] [] 0 0).1 (by decide) (by decide),
   (C4_extraction_sanitization_total [] [] [] 0 0).1 (by decide) (by decide),
   (C4_extraction_sanitization_total [] "plain text\nno markers".data "cid".data 0 10).2.2
     (by decide) (by decide)⟩

/-- C5: when the internal enhancement stage fails, the orchestrator surfaces
`Internal prompt enhancement failed: <original error>` with code 1 and never
invokes the chunk stage (its chunk-call log is empty). -/
theorem C5_enhancement_failure_no_chunk_call
    (metaExec : MetaArgs → ToolResult) (chunkExec : ChunkArgs → ToolResult) (args : EnhArgs)
    (e : Str) (code : Int)
    (hval : ¬(args.file_path = [] ∨ args.query = [] ∨ args.simple_prompt = []))
    (hmeta : metaExec ⟨args.simple_prompt, args.task_context⟩ = .error (e, code)) :
    (enhancedChunkExecute true metaExec chunkExec args).1
      = .error ("Internal prompt enhancement failed: ".data ++ e, 1)
    ∧ (enhancedChunkExecute true metaExec chunkExec args).2.2 = [] := by
  simp only [enhancedChunkExecute, Bool.not_true, Bool.false_eq_true, if_false, if_neg hval]
  rw [hmeta]
  exact ⟨rfl, rfl⟩

/-- C5 witness: a failing enhancement stage at concrete arguments. -/
theorem C5_witness :
    (enhancedChunkExecute true (fun _ => .error ("model exploded".data, 1))
        (fun _ => .ok "unused".data) w5args).1
      = .error ("Internal prompt enhancement failed: ".data ++ "model exploded".data, 1)
    ∧ (enhancedChunkExecute true (fun _ => .error ("model exploded".data, 1))
        (fun _ => .ok "unused".data) w5args).2.2 = [] :=
  C5_enhancement_failure_no_chunk_call _ _ w5args "model exploded".data 1 (by decide) rfl

/-- C6: under valid arguments (`0 ≤ start < end ≤ len`) and a successful run,
`TextChunkTool.execute`'s `seek`/`read` equals the spec's `[start, end)` slice,
its length is `end - start`, the single model call embeds exactly that chunk,
and the returned report is the standard format built from that chunk and its
length. -/
theorem C6_exact_slice_read (content : Str) (args : ChunkArgs) (chat : Str → Str)
    (hf : args.file_path ≠ []) (hq : args.query ≠ []) (he : args.enhanced_prompt ≠ [])
    (hs : 0 ≤ args.start_pos) (hse : args.start_pos < args.end_pos)
    (hlen : args.end_pos ≤ (content.length : Int))
    (hblank : ¬pyStrip (seekRead content args.start_pos args.end_pos) = [])
    (hresp : ¬chat (chunkUserMessage args.enhanced_prompt args.query
        (args.chunk_id.getD (chunkIdDefault args.start_pos args.end_pos))
        args.start_pos args.end_pos (seekRead content args.start_pos args.end_pos)) = []) :
    seekRead content args.start_pos args.end_pos = sliceSpec content args.start_pos args.end_pos
    ∧ (seekRead content args.start_pos args.end_pos).length
        = (args.end_pos - args.start_pos).toNat
    ∧ (textChunkExecute (some content) true args chat).2
        = [{ user_message := chunkUserMessage args.enhanced_prompt args.query
              (args.chunk_id.getD (chunkIdDefault args.start_pos args.end_pos))
              args.start_pos args.end_pos (sliceSpec content args.start_pos args.end_pos),
             chunk_text := sliceSpec content args.start_pos args.end_pos }]
    ∧ (textChunkExecute (some content) true args chat).1
        = .ok (chunkFormat (args.chunk_id.getD (chunkIdDefault args.start_pos args.end_pos))
            args.query args.start_pos args.end_pos
            (sliceSpec content args.start_pos args.end_pos)
            (chat (chunkUserMessage args.enhanced_prompt args.query
              (args.chunk_id.getD (chunkIdDefault args.start_pos args.end_pos))
              args.start_pos args.end_pos (sliceSpec content args.start_pos args.end_pos)))) := by
  have h1 := seekRead_eq_sliceSpec content args.start_pos args.end_pos hs
  have h2 := seekRead_length content args.start_pos args.end_pos hs hse hlen
  have hc1 : ¬(args.file_path = [] ∨ args.query = [] ∨ args.enhanced_prompt = []) := by
    tauto
  have hc2 : ¬(args.start_pos < 0 ∨ args.end_pos ≤ args.start_pos) := by
    omega
  have hexec : textChunkExecute (some content) true args chat
      = (.ok (chunkFormat (args.chunk_id.getD (chunkIdDefault args.start_pos args.end_pos))
            args.query args.start_pos args.end_pos
            (seekRead content args.start_pos args.end_pos)
            (chat (chunkUserMessage args.enhanced_prompt args.query
              (args.chunk_id.getD (chunkIdDefault args.start_pos args.end_pos))
              args.start_pos args.end_pos (seekRead content args.start_pos args.end_pos)))),
          [{ user_message := chunkUserMessage args.enhanced_prompt args.query
              (args.chunk_id.getD (chunkIdDefault args.start_pos args.end_pos))
              args.start_pos args.end_pos (seekRead content args.start_pos args.end_pos),
             chunk_text := seekRead content args.start_pos args.end_pos }]) := by
    simp only [textChunkExecute, if_neg hc1, if_neg hc2, Bool.not_true, Bool.false_eq_true,
      if_false, if_neg hblank, if_neg hresp]
  rw [← h1]
  exact ⟨rfl, h2, by rw [hexec], by rw [hexec]⟩

/-- C6 witness: reading `[2, 7)` of `"abcdefghij"`. -/
theorem C6_witness :
    seekRead w6content w6args.start_pos w6args.end_pos
        = sliceSpec w6content w6args.start_pos w6args.end_pos
    ∧ (seekRead w6content w6args.start_pos w6args.end_pos).length
        = (w6args.end_pos - w6args.start_pos).toNat
    ∧ (textChunkExecute (some w6content) true w6args (fun _ => "found it".data)).2
        = [{ user_message := chunkUserMessage w6args.enhanced_prompt w6args.query
              (w6args.chunk_id.getD (chunkIdDefault w6args.start_pos w6args.end_pos))
              w6args.start_pos w6args.end_pos
              (sliceSpec w6content w6args.start_pos w6args.end_pos),
             chunk_text := sliceSpec w6content w6args.start_pos w6args.end_pos }]
    ∧ (textChunkExecute (some w6content) true w6args (fun _ => "found it".data)).1
        = .ok (chunkFormat (w6args.chunk_id.getD (chunkIdDefault w6args.start_pos w6args.end_pos))
            w6args.query w6args.start_pos w6args.end_pos
            (sliceSpec w6content w6args.start_pos w6args.end_pos)
            ((fun _ => "found it".data) (chunkUserMessage w6args.enhanced_prompt w6args.query
              (w6args.chunk_id.getD (chunkIdDefault w6args.start_pos w6args.end_pos))
              w6args.start_pos w6args.end_pos
              (sliceSpec w6content w6args.start_pos w6args.end_pos)))) :=
  C6_exact_slice_read w6content w6args (fun _ => "found it".data) (by decide) (by decide)
    (by decide) (by decide) (by decide) (by decide) (by decide) (by decide)

/-- C7 counterexample: saving `"Hello world!\nThis is line 2.\nFinal line."`
reports 40 characters (`len` of the text), not the claimed 41. -/
theorem C7_counterexample :
    (save_context_stats w7text).file_size = 40
    ∧ (save_context_stats w7text).file_size ≠ 41 := by
  decide

/-- C7 (amended): the scenario string yields `characters = 40`, `lines = 3`,
`words = 8`; in general the character count is the length of the text and the
line count (newlines + 1) equals the number of fields of the text split at
newlines. -/
theorem C7_stats_amended :
    save_context_stats w7text = { file_size := 40, lines := 3, words := 8 }
    ∧ ∀ context : Str,
        (save_context_stats context).file_size = context.length
        ∧ (save_context_stats context).lines = (splitNL context).length := by
  refine ⟨by decide, fun c => ⟨rfl, ?_⟩⟩
  rw [splitNL_length]
  rfl

/-- C8: `LongContextAgent.execute_task` runs `_cleanup_temp_files` after the
control loop returns, so whatever execution the loop produces — success or
failure — the temporary workspace directory no longer exists afterwards, and
the execution is passed through unchanged.  The out-of-scope
`BaseAgent.execute_task` is modelled as an arbitrary state function (see
`execute_task`). -/
theorem C8_workspace_teardown
    (base_execute_task : AgentState → AgentExecution × AgentState) (s : AgentState) :
    ((execute_task base_execute_task s).2).temp_dir_exists = false
    ∧ (execute_task base_execute_task s).1 = (base_execute_task s).1 := by
  rcases hbs : base_execute_task s with ⟨ex, st⟩
  simp [execute_task, cleanup_temp_files, hbs]

/-- C9: with no LLM client configured, `EnhancedChunkTool.execute` returns the
backend-unavailable error immediately — for any arguments, no meta (enhancement)
call and no chunk call is issued. -/
theorem C9_no_client_unavailable (metaExec : MetaArgs → ToolResult)
    (chunkExec : ChunkArgs → ToolResult) (args : EnhArgs) :
    enhancedChunkExecute false metaExec chunkExec args
      = (.error ("LLM client not available for enhanced_chunk_tool".data, 1), [], []) :=
  rfl

/-- C10: format-then-extract round trip — for an enhanced prompt `E` none of
whose lines strips to `---`, extracting from the exact `MetaPromptTool`
success format returns `E` stripped of surrounding whitespace. -/
theorem C10_format_extract_round_trip (simple_prompt E : Str)
    (hE : ∀ l ∈ splitNL E, pyStrip l ≠ "---".data) :
    extract_enhanced_prompt (metaFormat simple_prompt E) = pyStrip E :=
  extract_metaFormat simple_prompt E hE

/-- C10 witness: a two-line enhanced prompt survives the round trip. -/
theorem C10_witness :
    (∀ l ∈ splitNL "Step one.\nStep two.".data, pyStrip l ≠ "---".data)
    ∧ extract_enhanced_prompt (metaFormat "do steps".data "Step one.\nStep two.".data)
        = pyStrip "Step one.\nStep two.".data :=
  ⟨by decide,
    C10_format_extract_round_trip "do steps".data "Step one.\nStep two.".data (by decide)⟩

set_option maxRecDepth 100000 in
/-- C1 witness: a 200-character synthetic instruction, with the chunk model
echoing its 50-character prefix, never appears in the orchestrator's returned
value. -/
theorem C1_witness :
    200 ≤ (extract_enhanced_prompt w1metaOut).length
    ∧ (w1E.take 50 <:+: pyStrip w1resp)
    ∧ ¬extract_enhanced_prompt w1metaOut <:+: pyStrip w1resp
    ∧ (enhancedChunkExecute true (fun _ => .ok w1metaOut) (fun _ => .ok w1chunkOut) w1args).1
        = .ok w1out
    ∧ ¬extract_enhanced_prompt w1metaOut <:+: w1out :=
  ⟨by decide, by decide, by decide, rfl,
    C1_context_isolation (fun _ => .ok w1metaOut) (fun _ => .ok w1chunkOut) w1args
      w1metaOut w1ct w1resp w1out rfl rfl
      (by decide) (by decide) (by decide) (by decide) (by decide) (by decide) (by decide)
      (by decide) (by decide) (by decide) rfl⟩
